import Mathlib

/-!
Verification development for the DavitTec/node.it static-site starter kit.

The definitions below are a shallow embedding of the repository's JavaScript
sources:
* `scripts/generate-static.js` — the static-site build (manifest, render loop,
  asset copy, top-level catch);
* `scripts/generate-favicons.js` — the icon pipeline (three PNG targets);
* `src/app.js` and `src/routes/index.js` — the two `/profile` route handlers;
* the `capitalize` helper of the routes module;
* the EJS templates (profile page, header/nav/footer/head partials) and the
  basePath-configured manifest recorded in the repository's documentation.

The file system is modelled as a partial map from paths (lists of segments
relative to the project root) to file contents (strings); asynchronous I/O is
modelled by explicit state passing, and fallible steps return `Except`.
-/

namespace NodeIt

/-! ## File-system model -/

/-- A path: the list of segments below the project root. -/
abbrev FsPath := List String

/-- The file system as a partial map from paths to file contents. -/
abbrev FS := FsPath → Option String

/-- One `fs.writeFile`/`fs.copyFile` effect: destination path and the bytes
written there. -/
structure FileWrite where
  path : FsPath
  content : String
deriving DecidableEq, Repr

/-- `fs.writeFile`: overwrite the destination unconditionally. -/
def writeFile (fs : FS) (p : FsPath) (c : String) : FS :=
  fun q => if q = p then some c else fs q

/-- Apply a list of writes in order (later writes overwrite earlier ones). -/
def applyWrites (ws : List FileWrite) (fs : FS) : FS :=
  match ws with
  | [] => fs
  | w :: rest => applyWrites rest (writeFile fs w.path w.content)

/-- The last write in `ws` whose path is `q`, if any. -/
def lastAt (ws : List FileWrite) (q : FsPath) : Option String :=
  match ws with
  | [] => none
  | w :: rest =>
    match lastAt rest q with
    | some c => some c
    | none => if q = w.path then some w.content else none

/-! ## JavaScript string primitives

Models of the JavaScript string methods used by the repository, on Lean
strings viewed as their lists of characters. -/

/-- JS `s.charAt(i)`: the one-character string at index `i`, or `""` when the
index is out of range (never throws). -/
def jsCharAt (s : String) (i : Nat) : String :=
  match s.data.drop i with
  | [] => ""
  | c :: _ => String.mk [c]

/-- JS `s.slice(i)` (for a non-negative index): the suffix from index `i`. -/
def jsSlice (s : String) (i : Nat) : String :=
  String.mk (s.data.drop i)

/-- JS `s.toLowerCase()`, as a per-character case mapping. -/
def jsToLowerCase (s : String) : String :=
  String.mk (s.data.map Char.toLower)

/-- JS `s.toUpperCase()`, as a per-character case mapping. -/
def jsToUpperCase (s : String) : String :=
  String.mk (s.data.map Char.toUpper)

/-- Helper for `jsSplit`: scan the characters, cutting at each separator.
JS `"".split(sep)` is `[""]`, and adjacent separators produce empty pieces. -/
def jsSplitAux (sep : Char) : List Char → List Char → List String
  | [], acc => [String.mk acc.reverse]
  | c :: rest, acc =>
    if c = sep then String.mk acc.reverse :: jsSplitAux sep rest []
    else jsSplitAux sep rest (c :: acc)

/-- JS `s.split(sep)` for a one-character separator. -/
def jsSplit (s : String) (sep : Char) : List String :=
  jsSplitAux sep s.data []

/-- JS `array.join(sep)`. -/
def jsJoin (sep : String) : List String → String
  | [] => ""
  | [x] => x
  | x :: y :: rest => x ++ sep ++ jsJoin sep (y :: rest)

/-- `true` iff `pat` is an initial segment of `s` (character lists). -/
def charsStartWith : List Char → List Char → Bool
  | [], _ => true
  | _ :: _, [] => false
  | a :: as, b :: bs => a == b && charsStartWith as bs

/-- `true` iff the string `s` starts with `pat`. -/
def strStartsWith (pat s : String) : Bool :=
  charsStartWith pat.data s.data

/-- Number of (possibly overlapping) occurrences of the non-empty pattern
`pat` in a character list. -/
def countOccurChars (pat : List Char) : List Char → Nat
  | [] => 0
  | c :: rest =>
    (if charsStartWith pat (c :: rest) then 1 else 0) + countOccurChars pat rest

/-- Number of occurrences of the non-empty pattern `pat` in the string `s`. -/
def countOccur (pat s : String) : Nat :=
  countOccurChars pat.data s.data

/-- The single-quote character as a string (used in rendered page text). -/
def sq : String := String.mk [Char.ofNat 39]

/-! ## `capitalize` (src/routes/index.js, src/unnamed/part_000 lines 8-15)

```js
function capitalize(str) {
  if (!str) return ""; // Handle null/undefined case
  return str
    .toLowerCase()
    .split(" ")
    .map((word) => word.charAt(0).toUpperCase() + word.slice(1))
    .join(" ");
}
```
`str` may be absent (`null`/`undefined`), modelled by `Option String`;
`!str` is also true for the empty string. -/

/-- The `capitalize` helper, embedded from src/unnamed/part_000 lines 8-15. -/
def capitalize (str : Option String) : String :=
  match str with
  | none => ""
  | some s =>
    if s = "" then ""
    else
      jsJoin " "
        (((jsSplit (jsToLowerCase s) ' ')).map fun word =>
          jsToUpperCase (jsCharAt word 0) ++ jsSlice word 1)

/-- The claim's description of `capitalize`: lowercase the string, then
uppercase the first character of each space-separated word, and rejoin the
words with single spaces. -/
def capitalizeSpec (s : String) : String :=
  jsJoin " "
    ((jsSplit (jsToLowerCase s) ' ').map fun w =>
      match w.data with
      | [] => ""
      | c :: cs => String.mk (c.toUpper :: cs))

/-! ## The two `/profile` route handlers (C10)

`src/src/app.js` lines 23-32 builds the user record with an unguarded
`process.env.USER_KEY.split(",")`; `src/src/routes/index.js` lines 103-114
guards every environment read with a fallback. The process environment is
modelled as three optional variables; JS `||` and `cond ? a : b` treat the
empty string as falsy. -/

/-- The environment variables the profile handlers read. -/
structure Env where
  USER_NAME : Option String
  USER_ID : Option String
  USER_KEY : Option String
deriving DecidableEq, Repr

/-- The user record built by the route handlers. -/
structure RouteUser where
  name : String
  id : String
  key : List String
deriving DecidableEq, Repr

/-- JS runtime errors relevant here: reading a method off `undefined`. -/
inductive JsError where
  | typeError
deriving DecidableEq, Repr

/-- JS `v || d` on an environment read: `undefined` and `""` are falsy. -/
def jsOrDefault (v : Option String) (d : String) : String :=
  match v with
  | none => d
  | some s => if s = "" then d else s

/-- The `/profile` handler of src/src/app.js lines 23-32: `name` and `id`
fall back via `||`, but `key` is `process.env.USER_KEY.split(",")` with no
guard, so an unset `USER_KEY` raises a `TypeError`. -/
def appProfileUser (env : Env) : Except JsError RouteUser :=
  match env.USER_KEY with
  | none => .error .typeError
  | some k =>
    .ok { name := jsOrDefault env.USER_NAME "Joe Bloggs"
          id := jsOrDefault env.USER_ID "239482"
          key := jsSplit k ',' }

/-- The `/profile` handler of src/src/routes/index.js lines 103-114:
`key` uses `process.env.USER_KEY ? USER_KEY.split(",") : [defaults]`, so
every environment read is guarded. -/
def routerProfileUser (env : Env) : Except JsError RouteUser :=
  .ok { name := jsOrDefault env.USER_NAME "Joe Bloggs"
        id := jsOrDefault env.USER_ID "239482"
        key :=
          match env.USER_KEY with
          | none => ["reading", "gaming", "hiking"]
          | some k =>
            if k = "" then ["reading", "gaming", "hiking"] else jsSplit k ',' }

/-! ## Directory trees and `copyDir` (scripts/generate-static.js lines 52-64)

```js
async function copyDir(src, dest) {
  await fs.mkdir(dest, { recursive: true });
  const entries = await fs.readdir(src, { withFileTypes: true });
  for (const entry of entries) {
    const srcPath = path.join(src, entry.name);
    const destPath = path.join(dest, entry.name);
    if (entry.isDirectory()) {
      await copyDir(srcPath, destPath);
    } else {
      await fs.copyFile(srcPath, destPath);
    }
  }
}
```
A directory is modelled as its `readdir` listing: a sequence of named
entries, each a file (with contents) or a subdirectory. `mkdir` has no
observable effect in the path-to-contents file-system model. -/

mutual
/-- One `readdir` entry: a file with its contents, or a subdirectory. -/
inductive FsTree where
  | file (content : String) : FsTree
  | dir (entries : FsEntries) : FsTree
/-- A `readdir` listing: named entries in directory order. -/
inductive FsEntries where
  | nil : FsEntries
  | cons (name : String) (t : FsTree) (rest : FsEntries) : FsEntries
end

mutual
/-- The body of the `copyDir` loop for one entry already joined to its
destination path: a file is copied verbatim, a directory is recursed into. -/
def copyEntry (dest : FsPath) : FsTree → List FileWrite
  | .file c => [⟨dest, c⟩]
  | .dir es => copyDir es dest
/-- `copyDir src dest` as the list of file writes it performs, in order. -/
def copyDir (src : FsEntries) (dest : FsPath) : List FileWrite :=
  match src with
  | .nil => []
  | .cons n t rest => copyEntry (dest ++ [n]) t ++ copyDir rest dest
end

mutual
/-- Look up the file contents at a relative path inside a tree. -/
def FsTree.lookup : FsTree → FsPath → Option String
  | .file c, [] => some c
  | .file _, _ :: _ => none
  | .dir _, [] => none
  | .dir es, n :: p => FsEntries.lookupName es n p
/-- Look up `n :: p` among a directory's entries (first match wins). -/
def FsEntries.lookupName : FsEntries → String → FsPath → Option String
  | .nil, _, _ => none
  | .cons m t rest, n, p =>
    if m = n then t.lookup p else FsEntries.lookupName rest n p
end

/-- The entry names of a `readdir` listing. -/
def FsEntries.names : FsEntries → List String
  | .nil => []
  | .cons n _ rest => n :: rest.names

mutual
/-- Well-formedness of a tree as a real file system: entry names are unique
within each directory (guaranteed by `readdir`). -/
def FsTree.wf : FsTree → Prop
  | .file _ => True
  | .dir es => es.names.Nodup ∧ es.wfAll
/-- All entries of a listing are well-formed trees. -/
def FsEntries.wfAll : FsEntries → Prop
  | .nil => True
  | .cons _ t rest => t.wf ∧ rest.wfAll
end

/-! ## The static-site build (scripts/generate-static.js lines 5-50)

The build environment packages what the script reads: the template files
under `src/views` (via `fs.readFile`), the EJS renderer (an external
library, so kept abstract as a function that may fail), and the `readdir`
listing of `src/public`. A render failure is a thrown `TemplateError`;
`ejs.render` is invoked with `filename: templatePath`, so its errors carry
the template path. -/

/-- A template-load or render error; `filename` is the template path the
error reports (ejs is passed `filename: templatePath`). -/
structure TemplateError where
  filename : String
deriving DecidableEq, Repr

/-- The per-page data records of the manifest (JS object literals). -/
structure ManifestUser where
  name : String
  firstname : String
  id : String
  key : List String
deriving DecidableEq, Repr

/-- The `data` field of a manifest entry: always a `title`; the profile page
carries a `user` record; the basePath-configured manifest carries
`basePath`. -/
structure PageData where
  title : String
  user : Option ManifestUser := none
  basePath : Option String := none
deriving DecidableEq, Repr

/-- One manifest entry of `pages` (folder, template file, data). -/
structure Page where
  folder : String
  file : String
  data : PageData
deriving DecidableEq, Repr

/-- The profile user of the manifest (generate-static.js lines 19-24). -/
def joeProfileUser : ManifestUser :=
  { name := "Joe Bloggs"
    firstname := "Joe"
    id := "239482"
    key := ["reading", "gaming", "hiking"] }

/-- The build manifest `pages` (generate-static.js lines 10-27). -/
def pages : List Page :=
  [ { folder := "", file := "index.ejs", data := { title := "Home" } }
  , { folder := "about", file := "about.ejs", data := { title := "About" } }
  , { folder := "contact", file := "contact.ejs", data := { title := "Contact" } }
  , { folder := "profile", file := "profile.ejs"
      data := { title := "Joe Bloggs" ++ sq ++ "s Profile"
                user := some joeProfileUser } } ]

/-- `path.join(__dirname, "..", "src", "views", file)` rendered relative to
the project root, as the string passed to ejs as `filename`. -/
def viewsPath (file : String) : String := "src/views/" ++ file

/-- `path.join(dir, seg)`: joining the empty segment leaves `dir` unchanged
(so the root page's folder is the output root itself). -/
def joinPath (dir : FsPath) (seg : String) : FsPath :=
  if seg = "" then dir else dir ++ [seg]

/-- The output root `path.join(__dirname, "..", "dist")`. -/
def outputDir : FsPath := ["dist"]

/-- Where a manifest entry's page is written:
`path.join(path.join(outputDir, folder), "index.html")`. -/
def pageOutPath (folder : String) : FsPath :=
  joinPath outputDir folder ++ ["index.html"]

/-- The `readdir` source of the asset copy, `src/public`. -/
def publicSrc : FsPath := ["src", "public"]

/-- The destination of the asset copy, `path.join(outputDir, "public")`. -/
def publicDest : FsPath := ["dist", "public"]

/-- What the build reads: template sources, the EJS renderer, and the
`src/public` listing. `render` takes the template source, the `filename`
option, and the page data. -/
structure BuildEnv where
  readTemplate : String → Except TemplateError String
  render : String → String → PageData → Except TemplateError String
  publicDir : FsEntries

/-- Render one manifest entry (generate-static.js lines 30-37): load the
template text, then `ejs.render(templateStr, { ...page.data, filename })`. -/
def renderPage (env : BuildEnv) (p : Page) : Except TemplateError String :=
  match env.readTemplate p.file with
  | .error e => .error e
  | .ok templateStr => env.render templateStr (viewsPath p.file) p.data

/-- The `for (const page of pages)` loop (generate-static.js lines 29-45):
render each page in order and write `<pageDir>/index.html`; the first
thrown error aborts the rest of the loop. Returns the resulting file
system and the error, if one was thrown. -/
def runPages (env : BuildEnv) (fs : FS) : List Page → FS × Option TemplateError
  | [] => (fs, none)
  | p :: rest =>
    match renderPage env p with
    | .error e => (fs, some e)
    | .ok html => runPages env (writeFile fs (pageOutPath p.folder) html) rest

/-- `generateStaticFiles` (generate-static.js lines 5-50): run the page
loop; if it completes, copy `src/public` into `dist/public`. -/
def generateStaticFiles (env : BuildEnv) (fs : FS) : FS × Option TemplateError :=
  match runPages env fs pages with
  | (fs1, some e) => (fs1, some e)
  | (fs1, none) => (applyWrites (copyDir env.publicDir publicDest) fs1, none)

/-- The script entry point, line 66:
`generateStaticFiles().catch((err) => console.error("Error:", err));`
The rejection is handled by the `.catch`, so the node process terminates
normally in both cases: the exit status is 0 whether the build succeeded
or failed. -/
def generateStaticScriptExit (env : BuildEnv) (fs : FS) : Nat :=
  match (generateStaticFiles env fs).2 with
  | some _ => 0
  | none => 0

/-! ## The icon pipeline (scripts/generate-favicons.js, src/unnamed/part_008)

```js
const sizes = [
  { size: 32, output: "favicon-32.png" },
  { size: 180, output: "apple-touch-icon.png" },
  { size: 192, output: "icon-192.png" },
];
for (const { size, output } of sizes) {
  const outputPath = path.join(outputDir, output);
  await sharp(svgPath).resize(size, size).png().toFile(outputPath);
}
```
`sharp` is an external library; it is modelled as an abstract rasterizer
whose contract (`.resize(w, h).png()` yields a `w × h` PNG) is a hypothesis
of the theorem about the pipeline. -/

/-- Output image formats. -/
inductive ImgFormat where
  | png
deriving DecidableEq, Repr

/-- A raster image written by the pipeline: pixel dimensions and format. -/
structure Raster where
  width : Nat
  height : Nat
  format : ImgFormat
deriving DecidableEq, Repr

/-- A rasterization/write failure for one target (carries the size). -/
structure IconError where
  size : Nat
deriving DecidableEq, Repr

/-- The pipeline's view of `sharp`: rasterize the source SVG at the given
width and height, producing a PNG or failing. -/
structure IconEnv where
  rasterize : Nat → Nat → Except IconError Raster

/-- The target list `sizes` (part_008 lines 26-30): all three outputs PNG. -/
def faviconSizes : List (Nat × String) :=
  [(32, "favicon-32.png"), (180, "apple-touch-icon.png"), (192, "icon-192.png")]

/-- The output directory `src/public/icons` (part_008 line 16). -/
def iconsOutDir : FsPath := ["src", "public", "icons"]

/-- The `for (const { size, output } of sizes)` loop (part_008 lines 32-38):
rasterize each target in order and write it; the first failure aborts the
remaining targets. Returns the writes (path, raster) in order. -/
def faviconLoop (env : IconEnv) :
    List (Nat × String) → Except IconError (List (FsPath × Raster))
  | [] => .ok []
  | (size, out) :: rest =>
    match env.rasterize size size with
    | .error e => .error e
    | .ok r =>
      match faviconLoop env rest with
      | .error e => .error e
      | .ok ws => .ok ((iconsOutDir ++ [out], r) :: ws)

/-- `generateFavicons` (part_008 lines 5-39). -/
def generateFavicons (env : IconEnv) : Except IconError (List (FsPath × Raster)) :=
  faviconLoop env faviconSizes

/-- The script entry point, part_008 line 41:
`generateFavicons().catch((err) => console.error("Error:", err));`
As with the build script, the rejection is handled, so the process exit
status is 0 whether the pipeline succeeded or failed. -/
def generateFaviconsScriptExit (env : IconEnv) : Nat :=
  match generateFavicons env with
  | .error _ => 0
  | .ok _ => 0

/-! ## The rendered profile page (src/unnamed/part_005 lines 438-461)

The corrected `src/views/profile.ejs`:

```
<!DOCTYPE html>
<html>
  <head>
    <title><%= user.name %>'s Profile</title>
    <link rel="stylesheet" href="/stylesheets/style.css">
  </head>
  <body>
    <%- include('partials/header') %>
    <%- include('partials/nav') %>

    <main>
      <h1><%= user.name %>'s Profile</h1>
      <p>ID: <%= user.id %></p>
      <h2>Hobbies</h2>
      <ul>
        <% user.key.forEach(function(item) { %>
          <li><%= item %></li>
        <% }); %>
      </ul>
    </main>

    <%- include('partials/footer') %>
  </body>
</html>
```

Its rendering is embedded directly: literal template text is kept verbatim,
`<%= e %>` interpolates the HTML-escaped value, `<%- include(...) %>`
splices the rendered partial, and `<% %>` control tags emit nothing. -/

/-- The characters `<%= %>` escapes and their entities (ejs `escapeXML`). -/
def ejsEscapeChar (c : Char) : List Char :=
  if c = '&' then "&amp;".data
  else if c = '<' then "&lt;".data
  else if c = '>' then "&gt;".data
  else if c = '"' then "&#34;".data
  else if c = Char.ofNat 39 then "&#39;".data
  else [c]

/-- ejs HTML escaping applied by `<%= %>`. -/
def ejsEscape (s : String) : String :=
  String.mk (s.data.foldr (fun c acc => ejsEscapeChar c ++ acc) [])

/-- The `user.key.forEach` loop body of profile.ejs: per item, the literal
text around `<%= item %>` inside the loop. -/
def renderHobbyItems (key : List String) : String :=
  key.foldl
    (fun acc item => acc ++ "\n          <li>" ++ ejsEscape item ++ "</li>\n        ")
    ""

/-- profile.ejs rendered with a user record; the three `include` partials
are parameters (their rendered text). -/
def renderProfileEjs (header nav footer : String) (user : ManifestUser) : String :=
  "<!DOCTYPE html>\n<html>\n  <head>\n    <title>"
    ++ ejsEscape user.name ++ sq ++ "s Profile</title>\n    <link rel=\"stylesheet\" href=\"/stylesheets/style.css\">\n  </head>\n  <body>\n    "
    ++ header ++ "\n    " ++ nav
    ++ "\n    \n    <main>\n      <h1>"
    ++ ejsEscape user.name ++ sq ++ "s Profile</h1>\n      <p>ID: "
    ++ ejsEscape user.id
    ++ "</p>\n      <h2>Hobbies</h2>\n      <ul>\n        "
    ++ renderHobbyItems user.key
    ++ "\n      </ul>\n    </main>\n    \n    "
    ++ footer ++ "\n  </body>\n</html>"

/-- `src/views/partials/header.ejs` (doc/Adding_Components.md). -/
def headerEjs : String := "<header>\n  <h1>My Website</h1>\n</header>"

/-- `src/views/partials/nav.ejs` (doc/Adding_Components.md). -/
def navEjs : String :=
  "<nav>\n  <a href=\"/\">Home</a>\n  <a href=\"/about\">About</a>\n  <a href=\"/contact\">Contact</a>\n  <a href=\"/profile\">Profile</a>\n</nav>"

/-- `src/views/partials/footer.ejs` (doc/Adding_Components.md). -/
def footerEjs : String := "<footer>\n  <p>&copy; 2025 My Website</p>\n</footer>"

/-- The profile page as rendered by the build for the manifest's profile
entry (user `joeProfileUser`), with the repository's partials. -/
def profileHtml : String :=
  renderProfileEjs headerEjs navEjs footerEjs joeProfileUser

/-! ## The basePath configuration (C2)

The basePath-configured build is recorded in doc/Adding_Components.md
(section "Fixing the link base path", updated `scripts/generate-static.js`,
`views/partials/head.ejs` and `views/partials/nav.ejs`): every manifest
entry's data carries `basePath: "/node.it"`, and every href emitted by the
head and nav partials is written `<%= basePath %>/...`. -/

/-- The updated manifest with `basePath: "/node.it"` in every entry's data
(doc/Adding_Components.md, updated generate-static.js). -/
def basePathPages : List Page :=
  [ { folder := "", file := "index.ejs"
      data := { title := "Home", basePath := some "/node.it" } }
  , { folder := "about", file := "about.ejs"
      data := { title := "About", basePath := some "/node.it" } }
  , { folder := "contact", file := "contact.ejs"
      data := { title := "Contact", basePath := some "/node.it" } }
  , { folder := "profile", file := "profile.ejs"
      data := { title := "Joe Bloggs" ++ sq ++ "s Profile"
                basePath := some "/node.it"
                user := some joeProfileUser } } ]

/-- The asset URLs emitted by the updated `head.ejs`, each written
`<%= basePath %>/...` in the template. -/
def headUrls (basePath : String) : List String :=
  [ basePath ++ "/public/styles/style.css"
  , basePath ++ "/public/icons/favicon-32.png"
  , basePath ++ "/public/icons/apple-touch-icon.png"
  , basePath ++ "/public/icons/icon-192.png" ]

/-- The nav link URLs emitted by the updated `nav.ejs`, each written
`<%= basePath %>/...` in the template. -/
def navUrls (basePath : String) : List String :=
  [ basePath ++ "/"
  , basePath ++ "/about"
  , basePath ++ "/contact"
  , basePath ++ "/profile" ]

/-- The internal link and asset URLs a rendered page emits: every page
includes the head and nav partials (head.ejs is included in all pages),
interpolating the page data's `basePath` (absent means `""`). -/
def pageInternalUrls (p : Page) : List String :=
  headUrls (p.data.basePath.getD "") ++ navUrls (p.data.basePath.getD "")

/-! ## Concrete instances used by witnesses -/

/-- An empty file system. -/
def emptyFS : FS := fun _ => none

/-- A build environment whose reads and renders all succeed. -/
def okBuildEnv : BuildEnv :=
  { readTemplate := fun _ => .ok "template"
    render := fun _ _ _ => .ok "<html>page</html>"
    publicDir := .nil }

/-- A build environment whose template loads all fail (missing template
files), reporting the failing path. -/
def failBuildEnv : BuildEnv :=
  { readTemplate := fun f => .error { filename := viewsPath f }
    render := fun _ _ _ => .ok "<html>page</html>"
    publicDir := .nil }

/-- A build environment whose renders all fail, reporting the `filename`
option they were invoked with. -/
def renderFailEnv : BuildEnv :=
  { readTemplate := fun _ => .ok "template"
    render := fun _ f _ => .error { filename := f }
    publicDir := .nil }

/-- An icon environment satisfying the sharp contract. -/
def okIconEnv : IconEnv :=
  { rasterize := fun w h => .ok { width := w, height := h, format := .png } }

/-- An icon environment whose rasterizations all fail. -/
def failIconEnv : IconEnv :=
  { rasterize := fun w _ => .error { size := w } }

/-- A small well-formed `src/public` tree for witnesses. -/
def samplePublic : FsEntries :=
  .cons "style.css" (.file "body \x7b\x7d")
    (.cons "icons" (.dir (.cons "favicon-32.png" (.file "PNG") .nil)) .nil)

/-- The about entry of the manifest, used by a witness. -/
def aboutPage : Page :=
  { folder := "about", file := "about.ejs", data := { title := "About" } }

/-- What `generateFavicons` produces under `okIconEnv`. -/
def okIconOuts : List (FsPath × Raster) :=
  [ (iconsOutDir ++ ["favicon-32.png"], { width := 32, height := 32, format := .png })
  , (iconsOutDir ++ ["apple-touch-icon.png"], { width := 180, height := 180, format := .png })
  , (iconsOutDir ++ ["icon-192.png"], { width := 192, height := 192, format := .png }) ]

/-! ## General lemmas about the file-system model -/

theorem applyWrites_lastAt (ws : List FileWrite) (fs : FS) (q : FsPath) :
    applyWrites ws fs q = (lastAt ws q <|> fs q) := by
  induction ws generalizing fs with
  | nil => rfl
  | cons w rest ih =>
    show applyWrites rest (writeFile fs w.path w.content) q = (lastAt (w :: rest) q <|> fs q)
    rw [ih]
    cases h : lastAt rest q with
    | some c => simp [lastAt, h]
    | none =>
      simp only [lastAt, h, writeFile]
      by_cases hq : q = w.path <;> simp [hq]

theorem applyWrites_twice (ws : List FileWrite) (fs : FS) :
    applyWrites ws (applyWrites ws fs) = applyWrites ws fs := by
  funext q
  rw [applyWrites_lastAt ws (applyWrites ws fs) q, applyWrites_lastAt ws fs q]
  cases lastAt ws q <;> rfl

theorem lastAt_eq_none (ws : List FileWrite) (q : FsPath)
    (h : ∀ w ∈ ws, w.path ≠ q) : lastAt ws q = none := by
  induction ws with
  | nil => rfl
  | cons w rest ih =>
    have hw : w.path ≠ q := h w (List.mem_cons_self w rest)
    have hrest := ih (fun x hx => h x (List.mem_cons_of_mem w hx))
    simp only [lastAt, hrest]
    rw [if_neg fun hq => hw hq.symm]

theorem applyWrites_untouched (ws : List FileWrite) (fs : FS) (q : FsPath)
    (h : ∀ w ∈ ws, w.path ≠ q) : applyWrites ws fs q = fs q := by
  rw [applyWrites_lastAt, lastAt_eq_none ws q h]
  rfl

theorem applyWrites_append (a b : List FileWrite) (fs : FS) :
    applyWrites (a ++ b) fs = applyWrites b (applyWrites a fs) := by
  induction a generalizing fs with
  | nil => rfl
  | cons w rest ih =>
    show applyWrites (rest ++ b) (writeFile fs w.path w.content) = _
    exact ih (writeFile fs w.path w.content)

/-! ## C9: the `capitalize` helper -/

theorem capitalizeWord_eq (w : String) :
    jsToUpperCase (jsCharAt w 0) ++ jsSlice w 1 =
      (match w.data with
       | [] => ""
       | c :: cs => String.mk (c.toUpper :: cs)) := by
  cases w with
  | mk data =>
    cases data with
    | nil => rfl
    | cons c cs => rfl

/-- C9: for every input, `capitalize` lowercases the string and uppercases
the first character of each space-separated word, rejoining the words with
single spaces; `null`/`undefined` (modelled `none`) and the empty string
yield the empty string, and the function is total (never throws). -/
theorem capitalize_matches_spec :
    capitalize none = "" ∧ capitalize (some "") = "" ∧
      ∀ s : String, capitalize (some s) = capitalizeSpec s := by
  refine ⟨rfl, rfl, fun s => ?_⟩
  by_cases hs : s = ""
  · subst hs; rfl
  · simp only [capitalize, if_neg hs, capitalizeSpec]
    congr 1
    exact List.map_congr_left fun w _ => capitalizeWord_eq w

/-! ## C10: the two `/profile` handlers -/

/-- C10: with `USER_KEY` unset the app.js handler throws a `TypeError`
(unguarded `process.env.USER_KEY.split`), while the routes/index.js handler
succeeds on every environment and falls back to the documented defaults
when all three variables are unset. -/
theorem profile_handlers_contrast :
    (∀ env : Env, env.USER_KEY = none → appProfileUser env = .error .typeError) ∧
    (∀ env : Env, ∃ u, routerProfileUser env = .ok u) ∧
    appProfileUser { USER_NAME := none, USER_ID := none, USER_KEY := none } =
      .error .typeError ∧
    routerProfileUser { USER_NAME := none, USER_ID := none, USER_KEY := none } =
      .ok { name := "Joe Bloggs", id := "239482", key := ["reading", "gaming", "hiking"] } := by
  refine ⟨fun env h => ?_, fun env => ⟨_, rfl⟩, rfl, rfl⟩
  simp [appProfileUser, h]

/-- Witness for C10 at the concrete all-unset environment. -/
theorem profile_handlers_contrast_witness :
    appProfileUser { USER_NAME := none, USER_ID := none, USER_KEY := none } =
      .error .typeError :=
  profile_handlers_contrast.1 { USER_NAME := none, USER_ID := none, USER_KEY := none } rfl

/-! ## C2: the basePath invariant -/

/-- C2: in the basePath-configured build (`basePath = "/node.it"` in every
manifest entry), every internal link and asset URL emitted by the rendered
pages carries the `/node.it` prefix, and none is the bare domain root. -/
theorem basePath_prefixes_all_urls :
    (basePathPages.all fun p =>
      (pageInternalUrls p).all fun url =>
        strStartsWith "/node.it" url && !(url == "/")) = true := by
  decide

/-! ## C7: contents of the rendered profile page -/

set_option maxRecDepth 1000000 in
/-- C7: the profile page rendered for the manifest's profile entry contains
the literal substrings "Joe Bloggs's Profile" and "239482", and each of
"reading", "gaming", "hiking" occurs exactly once, that occurrence inside a
`<li>` element of the page's single `<ul>` list. -/
theorem profile_html_contents :
    0 < countOccur ("Joe Bloggs" ++ sq ++ "s Profile") profileHtml ∧
    0 < countOccur "239482" profileHtml ∧
    countOccur "reading" profileHtml = 1 ∧
    countOccur "<li>reading</li>" profileHtml = 1 ∧
    countOccur "gaming" profileHtml = 1 ∧
    countOccur "<li>gaming</li>" profileHtml = 1 ∧
    countOccur "hiking" profileHtml = 1 ∧
    countOccur "<li>hiking</li>" profileHtml = 1 ∧
    countOccur "<ul>" profileHtml = 1 ∧
    countOccur "</ul>" profileHtml = 1 := by
  decide

/-! ## Lemmas about the page loop -/

theorem runPages_untouched (env : BuildEnv) (fs : FS) (ps : List Page) (q : FsPath)
    (h : ∀ p ∈ ps, pageOutPath p.folder ≠ q) :
    (runPages env fs ps).1 q = fs q := by
  induction ps generalizing fs with
  | nil => rfl
  | cons p rest ih =>
    simp only [runPages]
    cases hr : renderPage env p with
    | error e => rfl
    | ok html =>
      rw [ih (writeFile fs (pageOutPath p.folder) html)
        (fun r hrr => h r (List.mem_cons_of_mem p hrr))]
      simp only [writeFile]
      rw [if_neg (fun hq => h p (List.mem_cons_self p rest) hq.symm)]

theorem runPages_ok_mem (env : BuildEnv) (fs : FS) (ps : List Page)
    (hnd : (ps.map fun p => pageOutPath p.folder).Nodup)
    (hok : (runPages env fs ps).2 = none) :
    ∀ p ∈ ps, ∃ html, renderPage env p = .ok html ∧
      (runPages env fs ps).1 (pageOutPath p.folder) = some html := by
  induction ps generalizing fs with
  | nil => intro p hp; cases hp
  | cons p0 rest ih =>
    cases hr : renderPage env p0 with
    | error e =>
      rw [show runPages env fs (p0 :: rest) = (fs, some e) by simp [runPages, hr]] at hok
      cases hok
    | ok html =>
      have hstep : runPages env fs (p0 :: rest) =
          runPages env (writeFile fs (pageOutPath p0.folder) html) rest := by
        simp [runPages, hr]
      rw [hstep] at hok ⊢
      have hhead : pageOutPath p0.folder ∉ rest.map fun p => pageOutPath p.folder :=
        (List.nodup_cons.mp (by simpa using hnd)).1
      have hnd' : (rest.map fun p => pageOutPath p.folder).Nodup :=
        (List.nodup_cons.mp (by simpa using hnd)).2
      intro p hp
      rcases List.mem_cons.mp hp with rfl | hmem
      · refine ⟨html, hr, ?_⟩
        have hnot : ∀ r ∈ rest, pageOutPath r.folder ≠ pageOutPath p.folder := by
          intro r hrr heq
          exact hhead (heq ▸ List.mem_map_of_mem _ hrr)
        rw [runPages_untouched env _ rest _ hnot]
        simp [writeFile]
      · exact ih (writeFile fs (pageOutPath p0.folder) html) hnd' hok p hmem

theorem runPages_append (env : BuildEnv) (fs : FS) (a b : List Page)
    (ha : (runPages env fs a).2 = none) :
    runPages env fs (a ++ b) = runPages env (runPages env fs a).1 b := by
  induction a generalizing fs with
  | nil => rfl
  | cons p rest ih =>
    cases hr : renderPage env p with
    | error e =>
      rw [show runPages env fs (p :: rest) = (fs, some e) by simp [runPages, hr]] at ha
      cases ha
    | ok html =>
      have hstep : runPages env fs (p :: rest) =
          runPages env (writeFile fs (pageOutPath p.folder) html) rest := by
        simp [runPages, hr]
      have hstep2 : runPages env fs ((p :: rest) ++ b) =
          runPages env (writeFile fs (pageOutPath p.folder) html) (rest ++ b) := by
        simp [runPages, hr]
      rw [hstep] at ha ⊢
      rw [hstep2, ih _ ha]

theorem runPages_writes (env : BuildEnv) (ps : List Page) (fs : FS)
    (hok : (runPages env fs ps).2 = none) :
    ∃ ws : List FileWrite, ∀ fs' : FS, runPages env fs' ps = (applyWrites ws fs', none) := by
  induction ps generalizing fs with
  | nil => exact ⟨[], fun fs' => rfl⟩
  | cons p rest ih =>
    cases hr : renderPage env p with
    | error e =>
      rw [show runPages env fs (p :: rest) = (fs, some e) by simp [runPages, hr]] at hok
      cases hok
    | ok html =>
      have hstep : runPages env fs (p :: rest) =
          runPages env (writeFile fs (pageOutPath p.folder) html) rest := by
        simp [runPages, hr]
      rw [hstep] at hok
      obtain ⟨ws, hws⟩ := ih _ hok
      refine ⟨⟨pageOutPath p.folder, html⟩ :: ws, fun fs' => ?_⟩
      have hstep' : runPages env fs' (p :: rest) =
          runPages env (writeFile fs' (pageOutPath p.folder) html) rest := by
        simp [runPages, hr]
      rw [hstep', hws]
      rfl

theorem renderPage_error_filename (env : BuildEnv) (p : Page) (e : TemplateError)
    (hread : ∀ f err, env.readTemplate f = .error err → err.filename = viewsPath f)
    (hrender : ∀ s f d err, env.render s f d = .error err → err.filename = f)
    (h : renderPage env p = .error e) : e.filename = viewsPath p.file := by
  unfold renderPage at h
  cases hr : env.readTemplate p.file with
  | error e0 =>
    rw [hr] at h
    have he : e0 = e := by injection h
    subst he
    exact hread p.file e0 hr
  | ok templateStr =>
    rw [hr] at h
    exact hrender templateStr (viewsPath p.file) p.data e h

/-! ## Lemmas about `copyDir` -/

mutual
theorem copyEntry_path_shape (d : FsPath) (t : FsTree) :
    ∀ w ∈ copyEntry d t, ∃ suf : FsPath, w.path = d ++ suf := by
  cases t with
  | file c =>
    intro w hw
    rw [show copyEntry d (.file c) = [⟨d, c⟩] from rfl] at hw
    rcases List.mem_singleton.mp hw with rfl
    exact ⟨[], (List.append_nil d).symm⟩
  | dir es =>
    intro w hw
    obtain ⟨n, p', hp⟩ := copyDir_path_shape d es w hw
    exact ⟨n :: p', hp⟩

theorem copyDir_path_shape (d : FsPath) (es : FsEntries) :
    ∀ w ∈ copyDir es d, ∃ n : String, ∃ p' : FsPath, w.path = d ++ n :: p' := by
  cases es with
  | nil => intro w hw; cases hw
  | cons n t rest =>
    intro w hw
    rw [show copyDir (.cons n t rest) d = copyEntry (d ++ [n]) t ++ copyDir rest d
      from rfl] at hw
    rcases List.mem_append.mp hw with h | h
    · obtain ⟨suf, hsuf⟩ := copyEntry_path_shape (d ++ [n]) t w h
      exact ⟨n, suf, by rw [hsuf, List.append_assoc]; rfl⟩
    · exact copyDir_path_shape d rest w h
end

theorem lookupName_mem_names :
    ∀ (es : FsEntries) (n : String) (p : FsPath) (c : String),
      FsEntries.lookupName es n p = some c → n ∈ es.names
  | .nil, n, p, c => by intro h; cases h
  | .cons m t rest, n, p, c => by
    intro h
    rw [show FsEntries.lookupName (.cons m t rest) n p =
      (if m = n then t.lookup p else FsEntries.lookupName rest n p) from rfl] at h
    by_cases hm : m = n
    · subst hm
      exact List.mem_cons_self m rest.names
    · rw [if_neg hm] at h
      exact List.mem_cons_of_mem m (lookupName_mem_names rest n p c h)

/-- The first segment below `d` of a `copyDir` write is an entry name of the
source listing. -/
theorem copyDir_write_head_mem (d : FsPath) :
    ∀ (es : FsEntries), ∀ w ∈ copyDir es d,
      ∃ n : String, ∃ p' : FsPath, w.path = d ++ n :: p' ∧ n ∈ es.names
  | .nil => by intro w hw; cases hw
  | .cons n t rest => by
    intro w hw
    rw [show copyDir (.cons n t rest) d = copyEntry (d ++ [n]) t ++ copyDir rest d
      from rfl] at hw
    rcases List.mem_append.mp hw with h | h
    · obtain ⟨suf, hsuf⟩ := copyEntry_path_shape (d ++ [n]) t w h
      exact ⟨n, suf, by rw [hsuf, List.append_assoc]; rfl,
        List.mem_cons_self n rest.names⟩
    · obtain ⟨n', p', hp, hmem⟩ := copyDir_write_head_mem d rest w h
      exact ⟨n', p', hp, List.mem_cons_of_mem n hmem⟩

mutual
theorem copyEntry_mirror :
    ∀ (t : FsTree) (d : FsPath) (fs : FS), t.wf →
      ∀ (p : FsPath) (c : String), t.lookup p = some c →
        applyWrites (copyEntry d t) fs (d ++ p) = some c
  | .file c0, d, fs => by
    intro _ p c hl
    cases p with
    | nil =>
      have hc : c0 = c := by
        rw [show FsTree.lookup (.file c0) [] = some c0 from rfl] at hl
        injection hl
      subst hc
      show writeFile fs d c0 (d ++ []) = some c0
      rw [List.append_nil]
      simp [writeFile]
    | cons x xs => cases hl
  | .dir es, d, fs => by
    intro hwf p c hl
    cases p with
    | nil => cases hl
    | cons n p' =>
      rw [show FsTree.lookup (.dir es) (n :: p') = FsEntries.lookupName es n p'
        from rfl] at hl
      exact copyDir_mirror_lookup es d fs hwf n p' c hl

theorem copyDir_mirror_lookup :
    ∀ (es : FsEntries) (d : FsPath) (fs : FS), (FsTree.dir es).wf →
      ∀ (n : String) (p : FsPath) (c : String),
        FsEntries.lookupName es n p = some c →
        applyWrites (copyDir es d) fs (d ++ n :: p) = some c
  | .nil, d, fs => by intro _ n p c h; cases h
  | .cons m t rest, d, fs => by
    intro hwf n p c h
    have hwf' : (m :: rest.names).Nodup ∧ t.wf ∧ rest.wfAll := by
      rw [show FsTree.wf (.dir (.cons m t rest)) =
        ((FsEntries.names (.cons m t rest)).Nodup ∧ FsEntries.wfAll (.cons m t rest))
        from rfl] at hwf
      rw [show FsEntries.wfAll (.cons m t rest) = (t.wf ∧ rest.wfAll) from rfl] at hwf
      exact ⟨hwf.1, hwf.2⟩
    have hrestwf : (FsTree.dir rest).wf := by
      rw [show FsTree.wf (.dir rest) = (rest.names.Nodup ∧ rest.wfAll) from rfl]
      exact ⟨(List.nodup_cons.mp hwf'.1).2, hwf'.2.2⟩
    rw [show FsEntries.lookupName (.cons m t rest) n p =
      (if m = n then t.lookup p else FsEntries.lookupName rest n p) from rfl] at h
    rw [show copyDir (.cons m t rest) d = copyEntry (d ++ [m]) t ++ copyDir rest d
      from rfl]
    rw [applyWrites_append]
    by_cases hm : m = n
    · subst hm
      rw [if_pos rfl] at h
      have houter : ∀ w ∈ copyDir rest d, w.path ≠ d ++ m :: p := by
        intro w hw heq
        obtain ⟨n', p'', hp, hmem⟩ := copyDir_write_head_mem d rest w hw
        have hn : n' :: p'' = m :: p := List.append_cancel_left (hp ▸ heq)
        have : n' = m := by injection hn
        exact (List.nodup_cons.mp hwf'.1).1 (this ▸ hmem)
      rw [applyWrites_untouched _ _ _ houter]
      rw [show d ++ m :: p = (d ++ [m]) ++ p by rw [List.append_assoc]; rfl]
      exact copyEntry_mirror t (d ++ [m]) fs hwf'.2.1 p c h
    · rw [if_neg hm] at h
      exact copyDir_mirror_lookup rest d
        (applyWrites (copyEntry (d ++ [m]) t) fs) hrestwf n p c h
end

mutual
theorem copyEntry_writes_are_sources :
    ∀ (t : FsTree) (d : FsPath), t.wf →
      ∀ w ∈ copyEntry d t, ∃ p : FsPath, w.path = d ++ p ∧ t.lookup p = some w.content
  | .file c, d => by
    intro _ w hw
    rcases List.mem_singleton.mp hw with rfl
    exact ⟨[], (List.append_nil d).symm, rfl⟩
  | .dir es, d => by
    intro hwf w hw
    exact copyDir_writes_are_sources es d hwf w hw

theorem copyDir_writes_are_sources :
    ∀ (es : FsEntries) (d : FsPath), (FsTree.dir es).wf →
      ∀ w ∈ copyDir es d,
        ∃ p : FsPath, w.path = d ++ p ∧ (FsTree.dir es).lookup p = some w.content
  | .nil, d => by intro _ w hw; cases hw
  | .cons m t rest, d => by
    intro hwf w hw
    have hwf' : (m :: rest.names).Nodup ∧ t.wf ∧ rest.wfAll := by
      rw [show FsTree.wf (.dir (.cons m t rest)) =
        ((FsEntries.names (.cons m t rest)).Nodup ∧ FsEntries.wfAll (.cons m t rest))
        from rfl] at hwf
      rw [show FsEntries.wfAll (.cons m t rest) = (t.wf ∧ rest.wfAll) from rfl] at hwf
      exact ⟨hwf.1, hwf.2⟩
    have hrestwf : (FsTree.dir rest).wf := by
      rw [show FsTree.wf (.dir rest) = (rest.names.Nodup ∧ rest.wfAll) from rfl]
      exact ⟨(List.nodup_cons.mp hwf'.1).2, hwf'.2.2⟩
    rw [show copyDir (.cons m t rest) d = copyEntry (d ++ [m]) t ++ copyDir rest d
      from rfl] at hw
    rcases List.mem_append.mp hw with h | h
    · obtain ⟨p, hp, hlook⟩ := copyEntry_writes_are_sources t (d ++ [m]) hwf'.2.1 w h
      refine ⟨m :: p, by rw [hp, List.append_assoc]; rfl, ?_⟩
      rw [show FsTree.lookup (.dir (.cons m t rest)) (m :: p) =
        (if m = m then t.lookup p else FsEntries.lookupName rest m p) from rfl]
      rw [if_pos rfl]
      exact hlook
    · obtain ⟨p, hp, hlook⟩ := copyDir_writes_are_sources rest d hrestwf w h
      cases p with
      | nil => cases hlook
      | cons n p' =>
        rw [show FsTree.lookup (.dir rest) (n :: p') = FsEntries.lookupName rest n p'
          from rfl] at hlook
        have hn : n ∈ rest.names := lookupName_mem_names rest n p' w.content hlook
        have hm : m ≠ n := by
          intro hmn
          exact (List.nodup_cons.mp hwf'.1).1 (hmn ▸ hn)
        refine ⟨n :: p', hp, ?_⟩
        rw [show FsTree.lookup (.dir (.cons m t rest)) (n :: p') =
          (if m = n then t.lookup p' else FsEntries.lookupName rest n p') from rfl]
        rw [if_neg hm]
        exact hlook
end

/-! ## C1: one non-empty index.html per manifest entry -/

/-- C1: after a successful build, the output paths of the manifest entries
are pairwise distinct, and every entry has its rendered page at
`<outputRoot>/<folder>/index.html` (the output root itself when `folder` is
empty); the file is non-empty whenever the renderer never produces the
empty string. -/
theorem build_one_index_per_entry (env : BuildEnv) (fs : FS)
    (hok : (generateStaticFiles env fs).2 = none)
    (hne : ∀ p ∈ pages, ∀ html, renderPage env p = .ok html → html ≠ "") :
    (pages.map fun p => pageOutPath p.folder).Nodup ∧
    ∀ p ∈ pages, ∃ html, renderPage env p = .ok html ∧ html ≠ "" ∧
      (generateStaticFiles env fs).1 (pageOutPath p.folder) = some html := by
  have hnd : (pages.map fun p => pageOutPath p.folder).Nodup := by decide
  refine ⟨hnd, ?_⟩
  cases hrun : runPages env fs pages with
  | mk fs1 r =>
    cases r with
    | some e =>
      rw [show generateStaticFiles env fs = (fs1, some e) by
        simp [generateStaticFiles, hrun]] at hok
      cases hok
    | none =>
      have hout : generateStaticFiles env fs =
          (applyWrites (copyDir env.publicDir publicDest) fs1, none) := by
        simp [generateStaticFiles, hrun]
      intro p hp
      obtain ⟨html, hhtml, hfile⟩ :=
        runPages_ok_mem env fs pages hnd (by rw [hrun]) p hp
      rw [hrun] at hfile
      refine ⟨html, hhtml, hne p hp html hhtml, ?_⟩
      rw [hout]
      have hmiss : ∀ w ∈ copyDir env.publicDir publicDest,
          w.path ≠ pageOutPath p.folder := by
        intro w hw heq
        obtain ⟨n, p', hp'⟩ := copyDir_path_shape publicDest env.publicDir w hw
        have h2 : ∀ q ∈ pages, (pageOutPath q.folder).get? 1 ≠ some "public" := by
          decide
        have h3 : (publicDest ++ n :: p').get? 1 = some "public" := rfl
        exact h2 p hp (by rw [← heq, hp']; exact h3)
      show applyWrites (copyDir env.publicDir publicDest) fs1
          (pageOutPath p.folder) = some html
      rw [applyWrites_untouched _ _ _ hmiss]
      exact hfile

/-- Witness for C1: the concrete all-success environment, at the about
entry. -/
theorem build_one_index_per_entry_witness :
    ∃ html, renderPage okBuildEnv aboutPage = .ok html ∧ html ≠ "" ∧
      (generateStaticFiles okBuildEnv emptyFS).1 (pageOutPath aboutPage.folder) =
        some html :=
  (build_one_index_per_entry okBuildEnv emptyFS rfl
      (fun p _ html h => by
        simp only [renderPage, okBuildEnv] at h
        injection h with h'
        subst h'
        decide)).2
    aboutPage (by decide)

/-! ## C5: a render failure aborts the build -/

/-- C5: if the manifest splits as `done ++ p :: rest` with every entry of
`done` rendered successfully and `p`'s render failing with `e`, then the
build stops with error `e` (which reports `p`'s template path), the file
system is exactly the one after processing `done` (no write for `p`, no
entry of `rest` processed, no asset copy), and `p`'s output path is
untouched whenever no earlier entry wrote it. -/
theorem render_failure_aborts_build (env : BuildEnv) (fs : FS)
    (done rest : List Page) (p : Page) (e : TemplateError)
    (hsplit : pages = done ++ p :: rest)
    (hdone : (runPages env fs done).2 = none)
    (hfail : renderPage env p = .error e)
    (hread : ∀ f err, env.readTemplate f = .error err → err.filename = viewsPath f)
    (hrender : ∀ s f d err, env.render s f d = .error err → err.filename = f) :
    (generateStaticFiles env fs).2 = some e ∧
    e.filename = viewsPath p.file ∧
    (generateStaticFiles env fs).1 = (runPages env fs done).1 ∧
    ((∀ q ∈ done, pageOutPath q.folder ≠ pageOutPath p.folder) →
      (generateStaticFiles env fs).1 (pageOutPath p.folder) = fs (pageOutPath p.folder)) := by
  have hrun : runPages env fs pages = ((runPages env fs done).1, some e) := by
    rw [hsplit, runPages_append env fs done _ hdone]
    simp [runPages, hfail]
  have h1 : generateStaticFiles env fs = ((runPages env fs done).1, some e) := by
    simp [generateStaticFiles, hrun]
  refine ⟨by rw [h1], renderPage_error_filename env p e hread hrender hfail,
    by rw [h1], ?_⟩
  intro hq
  rw [h1]
  exact runPages_untouched env fs done _ hq

/-- Witness for C5: the environment whose renders all fail, split at the
first manifest entry. -/
theorem render_failure_aborts_build_witness :
    (generateStaticFiles renderFailEnv emptyFS).2 =
      some { filename := viewsPath "index.ejs" } :=
  (render_failure_aborts_build renderFailEnv emptyFS []
      (pages.drop 1) { folder := "", file := "index.ejs", data := { title := "Home" } }
      { filename := viewsPath "index.ejs" }
      rfl rfl rfl
      (fun _ err h => by cases h)
      (fun _ f _ err h => by
        have he : ({ filename := f } : TemplateError) = err := by injection h
        rw [← he])).1

/-! ## C8: the build is idempotent -/

/-- C8: running the build a second time on the output of a successful run
changes nothing — every destination file is overwritten unconditionally
with the same content, so the output trees are byte-identical. -/
theorem build_idempotent (env : BuildEnv) (fs : FS)
    (hok : (generateStaticFiles env fs).2 = none) :
    generateStaticFiles env (generateStaticFiles env fs).1 =
      generateStaticFiles env fs := by
  cases hrun : runPages env fs pages with
  | mk fs1 r =>
    cases r with
    | some e =>
      rw [show generateStaticFiles env fs = (fs1, some e) by
        simp [generateStaticFiles, hrun]] at hok
      cases hok
    | none =>
      obtain ⟨ws, hws⟩ := runPages_writes env pages fs (by rw [hrun])
      have hgen : ∀ fs' : FS, generateStaticFiles env fs' =
          (applyWrites (ws ++ copyDir env.publicDir publicDest) fs', none) := by
        intro fs'
        simp [generateStaticFiles, hws fs', applyWrites_append]
      rw [hgen fs, hgen (applyWrites (ws ++ copyDir env.publicDir publicDest) fs, none).1]
      show (applyWrites _ (applyWrites _ fs), none) = _
      rw [applyWrites_twice]

/-- Witness for C8: the concrete all-success environment. -/
theorem build_idempotent_witness :
    generateStaticFiles okBuildEnv (generateStaticFiles okBuildEnv emptyFS).1 =
      generateStaticFiles okBuildEnv emptyFS :=
  build_idempotent okBuildEnv emptyFS rfl

/-! ## C3: exit status of the two scripts on failure -/

/-- C3 (code bug): both script entry points wrap their async function in
`.catch((err) => console.error("Error:", err))`, so a failed build or a
failed icon run is only logged: the process exit status is 0, not the
non-zero status the spec requires for automation. Evaluated here at
concrete failing environments (a missing template file; a failing
rasterization). -/
theorem scripts_exit_zero_on_failure :
    (generateStaticFiles failBuildEnv emptyFS).2 =
        some { filename := viewsPath "index.ejs" } ∧
    generateStaticScriptExit failBuildEnv emptyFS = 0 ∧
    generateFavicons failIconEnv = .error { size := 32 } ∧
    generateFaviconsScriptExit failIconEnv = 0 :=
  ⟨rfl, rfl, rfl, rfl⟩

/-! ## C4: the asset copy is a byte-for-byte mirror -/

/-- C4: for a well-formed source assets tree, every file of the tree appears
with identical bytes at the mirrored relative path under `dist/public`, and
conversely every write `copyDir` performs is such a mirrored source file
(subdirectory structure preserved, no renaming, contents verbatim). -/
theorem copyDir_is_byte_mirror (src : FsEntries) (fs : FS)
    (hwf : (FsTree.dir src).wf) :
    (∀ p c, (FsTree.dir src).lookup p = some c →
        applyWrites (copyDir src publicDest) fs (publicDest ++ p) = some c) ∧
    (∀ w ∈ copyDir src publicDest, ∃ p, w.path = publicDest ++ p ∧
        (FsTree.dir src).lookup p = some w.content) := by
  constructor
  · intro p c hl
    exact copyEntry_mirror (.dir src) publicDest fs hwf p c hl
  · exact copyDir_writes_are_sources src publicDest hwf

/-- Witness for C4: the sample tree, looked up at its css file. -/
theorem copyDir_is_byte_mirror_witness :
    applyWrites (copyDir samplePublic publicDest) emptyFS
      (publicDest ++ ["style.css"]) = some "body \x7b\x7d" :=
  (copyDir_is_byte_mirror samplePublic emptyFS
      ⟨by decide, trivial, ⟨by decide, trivial, trivial⟩, trivial⟩).1
    ["style.css"] "body \x7b\x7d" rfl

/-! ## C6: the icon pipeline -/

/-- C6: given sharp's contract (`.resize(s, s).png()` yields an `s × s`
PNG), a successful run of `generateFavicons` creates exactly three output
files, at the three fixed names under `src/public/icons`, each a PNG whose
pixel dimensions are size × size for its target size. -/
theorem generateFavicons_three_png (env : IconEnv) (outs : List (FsPath × Raster))
    (hsharp : ∀ w h r, env.rasterize w h = .ok r →
      r.width = w ∧ r.height = h ∧ r.format = .png)
    (hok : generateFavicons env = .ok outs) :
    outs.length = 3 ∧
    outs = [ (iconsOutDir ++ ["favicon-32.png"],
              { width := 32, height := 32, format := .png })
           , (iconsOutDir ++ ["apple-touch-icon.png"],
              { width := 180, height := 180, format := .png })
           , (iconsOutDir ++ ["icon-192.png"],
              { width := 192, height := 192, format := .png }) ] := by
  cases h32 : env.rasterize 32 32 with
  | error e => simp [generateFavicons, faviconSizes, faviconLoop, h32] at hok
  | ok r32 =>
    cases h180 : env.rasterize 180 180 with
    | error e => simp [generateFavicons, faviconSizes, faviconLoop, h32, h180] at hok
    | ok r180 =>
      cases h192 : env.rasterize 192 192 with
      | error e =>
        simp [generateFavicons, faviconSizes, faviconLoop, h32, h180, h192] at hok
      | ok r192 =>
        simp only [generateFavicons, faviconSizes, faviconLoop, h32, h180, h192] at hok
        obtain ⟨hw32, hh32, hf32⟩ := hsharp 32 32 r32 h32
        obtain ⟨hw180, hh180, hf180⟩ := hsharp 180 180 r180 h180
        obtain ⟨hw192, hh192, hf192⟩ := hsharp 192 192 r192 h192
        have hr32 : r32 = { width := 32, height := 32, format := .png } := by
          cases r32; simp_all
        have hr180 : r180 = { width := 180, height := 180, format := .png } := by
          cases r180; simp_all
        have hr192 : r192 = { width := 192, height := 192, format := .png } := by
          cases r192; simp_all
        have houts : [ (iconsOutDir ++ ["favicon-32.png"], r32)
                     , (iconsOutDir ++ ["apple-touch-icon.png"], r180)
                     , (iconsOutDir ++ ["icon-192.png"], r192) ] = outs := by
          injection hok
        rw [← houts, hr32, hr180, hr192]
        exact ⟨rfl, rfl⟩

/-- Witness for C6: the concrete sharp-conforming environment. -/
theorem generateFavicons_three_png_witness :
    okIconOuts.length = 3 ∧
    okIconOuts = [ (iconsOutDir ++ ["favicon-32.png"],
                   { width := 32, height := 32, format := .png })
                 , (iconsOutDir ++ ["apple-touch-icon.png"],
                   { width := 180, height := 180, format := .png })
                 , (iconsOutDir ++ ["icon-192.png"],
                   { width := 192, height := 192, format := .png }) ] :=
  generateFavicons_three_png okIconEnv okIconOuts
    (fun w h r hr => by
      have hwr : ({ width := w, height := h, format := .png } : Raster) = r := by
        injection hr
      rw [← hwr]
      exact ⟨rfl, rfl, rfl⟩)
    rfl

end NodeIt
